import Mathlib

/-!
Verification of the client-outreach orchestrator (`client_outreach_orchestrator.py`
and the scripts it drives) against its natural-language specification.

The development shallowly embeds the Python source:

* `run_script` embeds the subprocess wrapper
  (`client_outreach_orchestrator.py`, lines 35-69);
* `pyFind` / `pySlice` / `pyStrip` / `extract_json_from_output` embed the
  marker-based JSON extraction (lines 71-105), with `json.loads` kept as an
  explicit decoder parameter;
* `approvalResult`, `discord_script_main` embed the approval script
  (`scripts/discord_api_message_send.py`, `request_client_approval` and `main`);
* `check_reaction` / `resolveDecision` embed the reaction filter used by
  `client.wait_for` (lines 272-284 of the same script);
* `process_client_approval` embeds the orchestrator's per-client result
  classification (lines 145-178);
* the `Event` / `Sched` / `runTrace` model embeds the lock-protected mutations
  of the shared results dictionary (lines 153-182 and 315-317) under an
  arbitrary interleaving of worker threads;
* `MonitorState` / `monitorStep` embed `scripts/discord_monitor.py`'s
  queue-and-flush notification sink;
* `RunReport` / `mainReport` embed the top-level dispatch of `main`
  (lines 186-360).
-/

namespace Outreach

/-! ## run_script (client_outreach_orchestrator.py, lines 35-69) -/

/-- The three ways `subprocess.run` can come back to `run_script`: a completed
process with a return code and captured output, a `subprocess.TimeoutExpired`
after the 86400 second limit, or any other raised exception. -/
inductive SubprocessOutcome where
  | completed (returncode : Int) (stdout stderr : String)
  | timedOut
  | raised (msg : String)
deriving DecidableEq

/-- The dictionary `run_script` returns: keys `success`, `stdout`, `stderr`,
`return_code`. -/
structure ScriptResult where
  success : Bool
  stdout : String
  stderr : String
  return_code : Int
deriving DecidableEq

/-- `run_script` (lines 46-69): `success` is `returncode == 0`; a timeout
yields `stderr = "Script timed out after 24 hours"` and `return_code = -1`;
any other exception yields its message as `stderr` and `return_code = -1`.
The function is total: every branch returns a `ScriptResult`. -/
def run_script : SubprocessOutcome → ScriptResult
  | SubprocessOutcome.completed rc out err =>
      { success := decide (rc = 0), stdout := out, stderr := err, return_code := rc }
  | SubprocessOutcome.timedOut =>
      { success := false, stdout := "", stderr := "Script timed out after 24 hours",
        return_code := -1 }
  | SubprocessOutcome.raised msg =>
      { success := false, stdout := "", stderr := msg, return_code := -1 }

/-! ## extract_json_from_output (lines 71-105)

Python strings are modelled as `List Char`; `pyFind` is `str.find` (first
index of the pattern, `-1` if absent), `pySlice` is `s[a:b]` for non-negative
bounds, `pyStrip` is `str.strip()`.  `json.loads` is an explicit decoder
parameter `loads`; a decoding failure (`json.JSONDecodeError`) is `none`,
which aborts the whole extraction exactly as the `except` clause does. -/

/-- Python `str.find`: index of the first occurrence of `pat` in `hay`,
or `-1` when `pat` does not occur. -/
def pyFind : List Char → List Char → Int
  | hay, pat =>
    if pat.isPrefixOf hay then 0
    else
      match hay with
      | [] => -1
      | _ :: t =>
        let r := pyFind t pat
        if r = -1 then -1 else r + 1

/-- Python `s[a:b]` for `0 ≤ a`, `0 ≤ b` (empty when `a ≥ b`). -/
def pySlice (s : List Char) (a b : Nat) : List Char :=
  (s.take b).drop a

/-- The whitespace set stripped by Python `str.strip()`. -/
def pyIsSpace (c : Char) : Bool :=
  c = ' ' || c = '\t' || c = '\n' || c = '\r' || c = '\x0b' || c = '\x0c'

/-- Python `str.strip()`. -/
def pyStrip (s : List Char) : List Char :=
  ((s.dropWhile pyIsSpace).reverse.dropWhile pyIsSpace).reverse

/-- `extract_json_from_output` (lines 71-105): look for the
`=== JSON OUTPUT START/END ===` marker pair first; if both markers are found,
decode the stripped slice between them (a decode failure returns `None`
without trying the second pair, because the exception handler wraps the whole
body).  Otherwise try the `=== APPROVAL RESULT START/END ===` pair; if neither
pair is present, return `None`. -/
def extract_json_from_output {α : Type} (loads : List Char → Option α)
    (output : List Char) : Option α :=
  let sm1 := "=== JSON OUTPUT START ===".toList
  let em1 := "=== JSON OUTPUT END ===".toList
  let s1 := pyFind output sm1
  let e1 := pyFind output em1
  if s1 ≠ -1 ∧ e1 ≠ -1 then
    loads (pyStrip (pySlice output (s1.toNat + sm1.length) e1.toNat))
  else
    let sm2 := "=== APPROVAL RESULT START ===".toList
    let em2 := "=== APPROVAL RESULT END ===".toList
    let s2 := pyFind output sm2
    let e2 := pyFind output em2
    if s2 ≠ -1 ∧ e2 ≠ -1 then
      loads (pyStrip (pySlice output (s2.toNat + sm2.length) e2.toNat))
    else
      none

/-! ## The approval script (scripts/discord_api_message_send.py) -/

/-- The `approval_result` dictionary built by `request_client_approval`
(lines 230, 286-331): `approved`, `error` (possibly `None`), and the optional
`approved_by` / `rejected_by` fields. -/
structure ApprovalData where
  approved : Bool
  error : Option String
  approved_by : Option String
  rejected_by : Option String
deriving DecidableEq

/-- Python truthiness of `d.get("error")`: truthy iff present and non-empty. -/
def truthy : Option String → Bool
  | none => false
  | some s => !s.isEmpty

/-- How one approval request can resolve inside `request_client_approval`:
an approve reaction, a reject reaction, the 86400 s `asyncio.TimeoutError`,
or an internal channel failure (missing channel, wrong channel type, or any
exception), which stores its message in the `error` field. -/
inductive DecisionOutcome where
  | approvedBy (user : String)
  | rejectedBy (user : String)
  | timedOut
  | channelError (msg : String)
deriving DecidableEq

/-- The `approval_result` produced for each resolution
(`request_client_approval`, lines 230, 286-331): the approve branch sets
`approved = True` and `approved_by`; the reject branch sets `rejected_by`;
the timeout handler sets `error = "No response within 24 hours"`; channel
failures set `error` to their message. -/
def approvalResult : DecisionOutcome → ApprovalData
  | DecisionOutcome.approvedBy u =>
      { approved := true, error := none, approved_by := some u, rejected_by := none }
  | DecisionOutcome.rejectedBy u =>
      { approved := false, error := none, approved_by := none, rejected_by := some u }
  | DecisionOutcome.timedOut =>
      { approved := false, error := some "No response within 24 hours",
        approved_by := none, rejected_by := none }
  | DecisionOutcome.channelError m =>
      { approved := false, error := some m, approved_by := none, rejected_by := none }

/-- What one run of the approval script looks like from outside: its exit
code, the `approval_result` payload it printed between the
`=== APPROVAL RESULT ===` markers, whether it invoked `scripts/send_email.py`,
and, when it did, that subprocess's return code. -/
structure ScriptRun where
  exitCode : Int
  payload : ApprovalData
  emailAttempted : Bool
  emailExitCode : Option Int
deriving DecidableEq

/-- `main` of `scripts/discord_api_message_send.py` (lines 367-392) after the
approval resolved: the payload is printed first (lines 370-372); on
`approved` the email subprocess is run and its return code only changes what
is printed — `main` falls through and the script exits 0 either way
(lines 374-386); on a truthy `error` the script exits 1 (lines 388-390);
otherwise ("rejected or timed out") it exits 0 (lines 391-392).
`sendExit` is the return code `scripts/send_email.py` would produce. -/
def discord_script_main (d : DecisionOutcome) (sendExit : Int) : ScriptRun :=
  let r := approvalResult d
  if r.approved then
    { exitCode := 0, payload := r, emailAttempted := true, emailExitCode := some sendExit }
  else if truthy r.error then
    { exitCode := 1, payload := r, emailAttempted := false, emailExitCode := none }
  else
    { exitCode := 0, payload := r, emailAttempted := false, emailExitCode := none }

/-! ## The reaction filter (discord_api_message_send.py, lines 272-284) -/

def APPROVE_EMOJI : String := "👍"
def REJECT_EMOJI : String := "👎"

/-- One `reaction_add` gateway event as seen by `check_reaction`: the id of
the message the reaction is attached to, the emoji, and whether the reacting
user is a bot. -/
structure ReactionSignal where
  messageId : Nat
  emoji : String
  userIsBot : Bool
deriving DecidableEq

/-- `check_reaction` (lines 272-277): the reaction must be on the very
message this request posted, must be one of the two decision emojis, and must
come from a non-bot user. -/
def check_reaction (messageId : Nat) (r : ReactionSignal) : Bool :=
  (r.messageId == messageId)
    && ((r.emoji == APPROVE_EMOJI) || (r.emoji == REJECT_EMOJI))
    && (!r.userIsBot)

/-- `client.wait_for('reaction_add', check=check_reaction)`: the pending
request resolves on the first signal in the stream that passes the check;
all earlier signals are discarded. -/
def resolveDecision (messageId : Nat) (signals : List ReactionSignal) :
    Option ReactionSignal :=
  signals.find? (check_reaction messageId)

/-! ## Per-client classification (client_outreach_orchestrator.py, 145-178) -/

/-- Which shared counter a finished client bumps in its first lock-protected
update (`shared_results["approved"/"rejected"/"errors"] += 1`). -/
inductive CounterKind where
  | approved
  | rejected
  | errors
deriving DecidableEq

/-- The `client_result["status"]` tags assigned by `process_client_approval`. -/
inductive Status where
  | approved_and_sent
  | rejected
  | error
  | script_error
deriving DecidableEq

/-- The classification in `process_client_approval` (lines 145-178): when the
approval subprocess succeeded, a payload with truthy `approved` is
`approved_and_sent` (counter `approved`); else a payload with truthy `error`
is `error` (counter `errors`); anything else — including a missing or
undecodable payload — is `rejected` (counter `rejected`).  A failed
subprocess is `script_error` (counter `errors`). -/
def process_client_approval (discordSuccess : Bool)
    (approval_data : Option ApprovalData) : Status × CounterKind :=
  if discordSuccess then
    match approval_data with
    | some a =>
      if a.approved then (Status.approved_and_sent, CounterKind.approved)
      else if truthy a.error then (Status.error, CounterKind.errors)
      else (Status.rejected, CounterKind.rejected)
    | none => (Status.rejected, CounterKind.rejected)
  else (Status.script_error, CounterKind.errors)

/-- End-to-end per-client pipeline: the approval script runs (its email
subprocess exiting with `sendExit` when attempted), `run_script` reports
`success` iff the script exited 0, and the orchestrator classifies the
extracted payload. -/
def orchestrator_outcome (d : DecisionOutcome) (sendExit : Int) :
    Status × CounterKind :=
  let r := discord_script_main d sendExit
  process_client_approval (decide (r.exitCode = 0)) (some r.payload)

/-! ## The shared results dictionary under concurrent workers
(client_outreach_orchestrator.py, lines 270-317)

`shared_results` is mutated only inside `with results_lock:` blocks, so a run
is an interleaving of atomic events.  A worker that finishes normally
performs two *separate* critical sections: first
`shared_results[counter] += 1` (lines 153-154 / 160-161 / 168-169 / 175-176),
then `shared_results["processed"] += 1; client_results.append(...)`
(lines 180-182).  A worker whose future raised is handled by the
orchestrator's `as_completed` loop in one critical section
`errors += 1; processed += 1` with no append (lines 315-317). -/

/-- One lock-protected mutation of `shared_results`. -/
inductive Event where
  | incCounter (k : CounterKind)
  | finishClient (email : String)
  | excCaught
deriving DecidableEq

/-- How one client's worker behaves: it either completes normally, bumping
counter `k` and then appending a result for `email`, or its future raises and
the orchestrator's handler runs instead. -/
inductive WorkerBehavior where
  | completes (k : CounterKind) (email : String)
  | raises
deriving DecidableEq

/-- The ordered critical sections one worker contributes to the run. -/
def workerEvents : WorkerBehavior → List Event
  | WorkerBehavior.completes k email => [Event.incCounter k, Event.finishClient email]
  | WorkerBehavior.raises => [Event.excCaught]

/-- The `shared_results` dictionary (lines 272-279). -/
structure Stats where
  total_clients : Nat
  processed : Nat
  approved : Nat
  rejected : Nat
  errors : Nat
  client_results : List String
deriving DecidableEq

/-- `shared_results` as initialised at lines 272-279 for `n` fetched clients. -/
def initStats (n : Nat) : Stats :=
  { total_clients := n, processed := 0, approved := 0, rejected := 0,
    errors := 0, client_results := [] }

/-- Effect of one critical section on `shared_results`. -/
def applyEvent (s : Stats) : Event → Stats
  | Event.incCounter CounterKind.approved => { s with approved := s.approved + 1 }
  | Event.incCounter CounterKind.rejected => { s with rejected := s.rejected + 1 }
  | Event.incCounter CounterKind.errors => { s with errors := s.errors + 1 }
  | Event.finishClient email =>
      { s with processed := s.processed + 1,
               client_results := s.client_results ++ [email] }
  | Event.excCaught => { s with errors := s.errors + 1, processed := s.processed + 1 }

/-- Replay a sequence of critical sections. -/
def runTrace (s : Stats) (t : List Event) : Stats :=
  t.foldl applyEvent s

/-- `Sched ws t`: trace `t` is an interleaving of the per-worker event lists
`ws` — at each step the scheduler picks some worker `i` and runs its next
critical section.  This is exactly the guarantee `results_lock` gives: events
of different workers interleave arbitrarily, events of one worker stay in
program order. -/
inductive Sched : List (List Event) → List Event → Prop where
  | done {ws : List (List Event)} (h : ∀ w ∈ ws, w = []) : Sched ws []
  | step {ws : List (List Event)} (i : Nat) {e : Event} {rest t : List Event}
      (hi : ws.get? i = some (e :: rest)) (hs : Sched (ws.set i rest) t) :
      Sched ws (e :: t)

/-- `approved + rejected + errors`. -/
def sumCnt (s : Stats) : Nat := s.approved + s.rejected + s.errors

/-! ### Helper lemmas about interleavings -/

lemma mem_of_get? {α : Type} : ∀ (l : List α) (n : Nat) (x : α),
    l.get? n = some x → x ∈ l := by
  intro l
  induction l with
  | nil => intro n x h; simp [List.get?] at h
  | cons a tl ih =>
    intro n x h
    cases n with
    | zero =>
      have hx : a = x := Option.some.inj h
      subst hx
      exact List.mem_cons_self a tl
    | succ m =>
      exact List.mem_cons_of_mem a (ih m x h)

lemma mem_set_cases {α : Type} : ∀ (l : List α) (n : Nat) (y x : α),
    x ∈ l.set n y → x ∈ l ∨ x = y := by
  intro l
  induction l with
  | nil => intro n y x h; simp [List.set] at h
  | cons a tl ih =>
    intro n y x h
    cases n with
    | zero =>
      simp [List.set] at h
      rcases h with h | h
      · exact Or.inr h
      · exact Or.inl (List.mem_cons_of_mem a h)
    | succ m =>
      simp [List.set] at h
      rcases h with h | h
      · exact Or.inl (by simp [h])
      · rcases ih m y x h with h' | h'
        · exact Or.inl (List.mem_cons_of_mem a h')
        · exact Or.inr h'

/-- Replacing entry `i` (known to be `w`) by `w'` changes the sum of `f` over
the list by `f w' - f w`, stated additively. -/
lemma sum_map_set {α : Type} (f : α → Nat) : ∀ (l : List α) (i : Nat) (w w' : α),
    l.get? i = some w →
    ((l.set i w').map f).sum + f w = (l.map f).sum + f w' := by
  intro l
  induction l with
  | nil => intro i w w' h; simp [List.get?] at h
  | cons a tl ih =>
    intro i w w' h
    cases i with
    | zero =>
      have hw : a = w := Option.some.inj h
      subst hw
      show ((w' :: tl).map f).sum + f a = ((a :: tl).map f).sum + f w'
      simp only [List.map_cons, List.sum_cons]
      omega
    | succ m =>
      have key := ih m w w' h
      show ((a :: tl.set m w').map f).sum + f w = ((a :: tl).map f).sum + f w'
      simp only [List.map_cons, List.sum_cons]
      omega

/-- `1` when the worker has already bumped its outcome counter but not yet
`processed` (it sits between its two critical sections), else `0`. -/
def halfVal : List Event → Nat
  | [Event.finishClient _] => 1
  | _ => 0

/-- Does this critical section increment `processed`? -/
def procEvent : Event → Bool
  | Event.finishClient _ => true
  | Event.excCaught => true
  | Event.incCounter _ => false

/-- Number of `processed`-incrementing critical sections still pending in one
worker's remaining event list. -/
def procVal (w : List Event) : Nat := (w.filter procEvent).length

def halfSum (ws : List (List Event)) : Nat := (ws.map halfVal).sum

def procSum (ws : List (List Event)) : Nat := (ws.map procVal).sum

/-- The remaining event lists a worker can have during a run: both sections
pending, only the `processed` section pending, the orchestrator's exception
section pending, or finished. -/
def okWorker (w : List Event) : Prop :=
  (∃ k email, w = [Event.incCounter k, Event.finishClient email]) ∨
  (∃ email, w = [Event.finishClient email]) ∨
  w = [Event.excCaught] ∨ w = []

lemma halfVal_le_procVal (w : List Event) (hw : okWorker w) :
    halfVal w ≤ procVal w := by
  rcases hw with ⟨k, email, rfl⟩ | ⟨email, rfl⟩ | rfl | rfl <;>
    simp [halfVal, procVal, procEvent]

lemma half_le_proc : ∀ ws : List (List Event), (∀ w ∈ ws, okWorker w) →
    halfSum ws ≤ procSum ws := by
  intro ws
  induction ws with
  | nil => intro _; simp [halfSum, procSum]
  | cons a tl ih =>
    intro hok
    have h1 := halfVal_le_procVal a (hok a (List.mem_cons_self a tl))
    have h2 := ih (fun w hw => hok w (List.mem_cons_of_mem a hw))
    simp only [halfSum, procSum, List.map_cons, List.sum_cons] at h2 ⊢
    omega

lemma applyEvent_incCounter (s : Stats) (k : CounterKind) :
    sumCnt (applyEvent s (Event.incCounter k)) = sumCnt s + 1 ∧
    (applyEvent s (Event.incCounter k)).processed = s.processed ∧
    (applyEvent s (Event.incCounter k)).total_clients = s.total_clients := by
  cases k <;> simp [applyEvent, sumCnt] <;> omega

/-- Lock-level invariant of the shared results dictionary: along any
interleaving, `approved + rejected + errors` always equals `processed` plus
the number of workers currently sitting between their two critical sections;
in particular `processed ≤ approved + rejected + errors ≤ total_clients`
after every mutation, and once every worker has finished,
`approved + rejected + errors = processed = total_clients`. -/
lemma sched_invariant {ws : List (List Event)} {t : List Event} (h : Sched ws t) :
    ∀ s : Stats,
      (∀ w ∈ ws, okWorker w) →
      sumCnt s = s.processed + halfSum ws →
      s.processed + procSum ws = s.total_clients →
      (sumCnt (runTrace s t) = (runTrace s t).processed ∧
       (runTrace s t).processed = (runTrace s t).total_clients ∧
       ∀ p q : List Event, t = p ++ q →
         (runTrace s p).processed ≤ sumCnt (runTrace s p) ∧
         sumCnt (runTrace s p) ≤ (runTrace s p).total_clients) := by
  induction h with
  | done hws =>
    rename_i ws
    intro s hok heq htot
    have hhalf : halfSum ws = 0 := by
      apply List.sum_eq_zero
      intro x hx
      rcases List.mem_map.1 hx with ⟨w, hw, rfl⟩
      rw [hws w hw]
      rfl
    have hproc : procSum ws = 0 := by
      apply List.sum_eq_zero
      intro x hx
      rcases List.mem_map.1 hx with ⟨w, hw, rfl⟩
      rw [hws w hw]
      rfl
    refine ⟨by simpa [runTrace, hhalf] using heq, by simp [runTrace]; omega, ?_⟩
    intro p q hpq
    rcases List.append_eq_nil.mp hpq.symm with ⟨rfl, rfl⟩
    constructor
    · simp [runTrace]; omega
    · simp [runTrace]; omega
  | @step ws i e rest t hi hs ih =>
    intro s hok heq htot
    have hmem : (e :: rest) ∈ ws := mem_of_get? ws i _ hi
    have hokw : okWorker (e :: rest) := hok _ hmem
    have hhkey := sum_map_set halfVal ws i (e :: rest) rest hi
    have hpkey := sum_map_set procVal ws i (e :: rest) rest hi
    have hle := half_le_proc ws hok
    rcases hokw with ⟨k, email, hshape⟩ | ⟨email, hshape⟩ | hshape | hshape
    · -- first critical section of a normal worker: counter += 1
      obtain ⟨rfl, rfl⟩ : e = Event.incCounter k ∧ rest = [Event.finishClient email] := by
        injection hshape with h1 h2; exact ⟨h1, h2⟩
      have hok' : ∀ w ∈ ws.set i [Event.finishClient email], okWorker w := by
        intro w hw
        rcases mem_set_cases ws i [Event.finishClient email] w hw with h' | h'
        · exact hok w h'
        · exact h' ▸ Or.inr (Or.inl ⟨email, rfl⟩)
      obtain ⟨ha1, ha2, ha3⟩ := applyEvent_incCounter s k
      have hv1 : halfVal [Event.incCounter k, Event.finishClient email] = 0 := rfl
      have hv2 : halfVal [Event.finishClient email] = 1 := rfl
      have hv3 : procVal [Event.incCounter k, Event.finishClient email] = 1 := rfl
      have hv4 : procVal [Event.finishClient email] = 1 := rfl
      rw [hv1, hv2] at hhkey
      rw [hv3, hv4] at hpkey
      obtain ⟨c1, c2, c3⟩ := ih (applyEvent s (Event.incCounter k)) hok'
        (by simp only [halfSum] at hhkey heq ⊢; omega)
        (by simp only [procSum] at hpkey htot ⊢; omega)
      refine ⟨c1, c2, ?_⟩
      intro p q hpq
      cases p with
      | nil =>
        constructor
        · simp [runTrace]; omega
        · simp only [runTrace, List.foldl_nil]
          simp only [halfSum, procSum] at heq htot hle
          omega
      | cons p0 p' =>
        obtain ⟨rfl, ht⟩ : p0 = Event.incCounter k ∧ t = p' ++ q := by
          injection hpq with h1 h2; exact ⟨h1.symm, h2⟩
        exact c3 p' q ht
    · -- second critical section of a normal worker: processed += 1, append
      obtain ⟨rfl, rfl⟩ : e = Event.finishClient email ∧ rest = [] := by
        injection hshape with h1 h2; exact ⟨h1, h2⟩
      have hok' : ∀ w ∈ ws.set i ([] : List Event), okWorker w := by
        intro w hw
        rcases mem_set_cases ws i ([] : List Event) w hw with h' | h'
        · exact hok w h'
        · exact h' ▸ Or.inr (Or.inr (Or.inr rfl))
      have ha1 : sumCnt (applyEvent s (Event.finishClient email)) = sumCnt s := by
        simp [applyEvent, sumCnt]
      have ha2 : (applyEvent s (Event.finishClient email)).processed = s.processed + 1 := by
        simp [applyEvent]
      have ha3 : (applyEvent s (Event.finishClient email)).total_clients = s.total_clients := by
        simp [applyEvent]
      have hv1 : halfVal [Event.finishClient email] = 1 := rfl
      have hv2 : halfVal ([] : List Event) = 0 := rfl
      have hv3 : procVal [Event.finishClient email] = 1 := rfl
      have hv4 : procVal ([] : List Event) = 0 := rfl
      rw [hv1, hv2] at hhkey
      rw [hv3, hv4] at hpkey
      obtain ⟨c1, c2, c3⟩ := ih (applyEvent s (Event.finishClient email)) hok'
        (by simp only [halfSum] at hhkey heq ⊢; omega)
        (by simp only [procSum] at hpkey htot ⊢; omega)
      refine ⟨c1, c2, ?_⟩
      intro p q hpq
      cases p with
      | nil =>
        constructor
        · simp [runTrace]; omega
        · simp only [runTrace, List.foldl_nil]
          simp only [halfSum, procSum] at heq htot hle
          omega
      | cons p0 p' =>
        obtain ⟨rfl, ht⟩ : p0 = Event.finishClient email ∧ t = p' ++ q := by
          injection hpq with h1 h2; exact ⟨h1.symm, h2⟩
        exact c3 p' q ht
    · -- the orchestrator's exception handler: errors += 1; processed += 1
      obtain ⟨rfl, rfl⟩ : e = Event.excCaught ∧ rest = [] := by
        injection hshape with h1 h2; exact ⟨h1, h2⟩
      have hok' : ∀ w ∈ ws.set i ([] : List Event), okWorker w := by
        intro w hw
        rcases mem_set_cases ws i ([] : List Event) w hw with h' | h'
        · exact hok w h'
        · exact h' ▸ Or.inr (Or.inr (Or.inr rfl))
      have ha1 : sumCnt (applyEvent s Event.excCaught) = sumCnt s + 1 := by
        simp [applyEvent, sumCnt]; omega
      have ha2 : (applyEvent s Event.excCaught).processed = s.processed + 1 := by
        simp [applyEvent]
      have ha3 : (applyEvent s Event.excCaught).total_clients = s.total_clients := by
        simp [applyEvent]
      have hv1 : halfVal [Event.excCaught] = 0 := rfl
      have hv2 : halfVal ([] : List Event) = 0 := rfl
      have hv3 : procVal [Event.excCaught] = 1 := rfl
      have hv4 : procVal ([] : List Event) = 0 := rfl
      rw [hv1, hv2] at hhkey
      rw [hv3, hv4] at hpkey
      obtain ⟨c1, c2, c3⟩ := ih (applyEvent s Event.excCaught) hok'
        (by simp only [halfSum] at hhkey heq ⊢; omega)
        (by simp only [procSum] at hpkey htot ⊢; omega)
      refine ⟨c1, c2, ?_⟩
      intro p q hpq
      cases p with
      | nil =>
        constructor
        · simp [runTrace]; omega
        · simp only [runTrace, List.foldl_nil]
          simp only [halfSum, procSum] at heq htot hle
          omega
      | cons p0 p' =>
        obtain ⟨rfl, ht⟩ : p0 = Event.excCaught ∧ t = p' ++ q := by
          injection hpq with h1 h2; exact ⟨h1.symm, h2⟩
        exact c3 p' q ht
    · exact absurd hshape (by simp)

/-! ### Counting events along an interleaving -/

/-- Interleaving preserves per-event counts: summing any numeric weight over
the trace equals summing it over all workers' event lists. -/
lemma sched_traceCount {ws : List (List Event)} {t : List Event} (h : Sched ws t) :
    ∀ f : Event → Nat,
      (t.map f).sum = (ws.map (fun w => (w.map f).sum)).sum := by
  induction h with
  | done hws =>
    rename_i ws
    intro f
    simp only [List.map_nil, List.sum_nil]
    symm
    apply List.sum_eq_zero
    intro x hx
    rcases List.mem_map.1 hx with ⟨w, hw, rfl⟩
    rw [hws w hw]
    rfl
  | @step ws i e rest t hi hs ih =>
    intro f
    have key := sum_map_set (fun w => (w.map f).sum) ws i (e :: rest) rest hi
    have iht := ih f
    simp only [List.map_cons, List.sum_cons] at key iht ⊢
    omega

/-- The email appended by an event, if any. -/
def resultOf : Event → Option String
  | Event.finishClient email => some email
  | _ => none

/-- `client_results` collects exactly the appends of the trace, in order. -/
lemma runTrace_results : ∀ (t : List Event) (s : Stats),
    (runTrace s t).client_results = s.client_results ++ t.filterMap resultOf := by
  intro t
  induction t with
  | nil => intro s; simp [runTrace]
  | cons e t ih =>
    intro s
    have hstep : runTrace s (e :: t) = runTrace (applyEvent s e) t := rfl
    rw [hstep, ih]
    cases e with
    | incCounter k => cases k <;> simp [applyEvent, resultOf]
    | finishClient email => simp [applyEvent, resultOf]
    | excCaught => simp [applyEvent, resultOf]

/-- Weight of an event on the `errors` counter. -/
def errVal : Event → Nat
  | Event.incCounter CounterKind.errors => 1
  | Event.excCaught => 1
  | _ => 0

lemma runTrace_errors : ∀ (t : List Event) (s : Stats),
    (runTrace s t).errors = s.errors + (t.map errVal).sum := by
  intro t
  induction t with
  | nil => intro s; simp [runTrace]
  | cons e t ih =>
    intro s
    have hstep : runTrace s (e :: t) = runTrace (applyEvent s e) t := rfl
    rw [hstep, ih]
    cases e with
    | incCounter k => cases k <;> (simp [applyEvent, errVal]; try omega)
    | finishClient email => simp [applyEvent, errVal]
    | excCaught => simp [applyEvent, errVal]; omega

/-- `total_clients` is never mutated. -/
lemma runTrace_total : ∀ (t : List Event) (s : Stats),
    (runTrace s t).total_clients = s.total_clients := by
  intro t
  induction t with
  | nil => intro s; rfl
  | cons e t ih =>
    intro s
    have hstep : runTrace s (e :: t) = runTrace (applyEvent s e) t := rfl
    rw [hstep, ih]
    cases e with
    | incCounter k => cases k <;> rfl
    | finishClient email => rfl
    | excCaught => rfl

/-- Weight of an event on the multiplicity of `email` in `client_results`. -/
def finVal (email : String) : Event → Nat
  | Event.finishClient e => if e = email then 1 else 0
  | _ => 0

lemma count_filterMap (email : String) : ∀ t : List Event,
    (t.filterMap resultOf).count email = (t.map (finVal email)).sum := by
  intro t
  induction t with
  | nil => rfl
  | cons e t ih =>
    cases e with
    | incCounter k => simpa [resultOf, finVal] using ih
    | finishClient em =>
      by_cases hem : em = email
      · subst hem
        simp [resultOf, finVal, List.count_cons, ih]
        omega
      · simp [resultOf, finVal, List.count_cons, hem, ih]
    | excCaught => simpa [resultOf, finVal] using ih

/-- Contribution of one worker's behaviour to the multiplicity of `email`. -/
def clientEntryVal (email : String) : WorkerBehavior → Nat
  | WorkerBehavior.completes _ e => if e = email then 1 else 0
  | WorkerBehavior.raises => 0

lemma worker_finVal (email : String) (b : WorkerBehavior) :
    ((workerEvents b).map (finVal email)).sum = clientEntryVal email b := by
  cases b with
  | completes k e => simp [workerEvents, finVal, clientEntryVal]
  | raises => simp [workerEvents, finVal, clientEntryVal]

/-- Contribution of one worker's behaviour to the `errors` counter: an
error-classified completion or a raised future counts 1. -/
def behaviorErr : WorkerBehavior → Nat
  | WorkerBehavior.completes CounterKind.errors _ => 1
  | WorkerBehavior.completes _ _ => 0
  | WorkerBehavior.raises => 1

lemma worker_errVal (b : WorkerBehavior) :
    ((workerEvents b).map errVal).sum = behaviorErr b := by
  cases b with
  | completes k e => cases k <;> simp [workerEvents, errVal, behaviorErr]
  | raises => simp [workerEvents, errVal, behaviorErr]

lemma map_workerEvents_sum (g : Event → Nat) (hb : WorkerBehavior → Nat)
    (hg : ∀ b, ((workerEvents b).map g).sum = hb b) :
    ∀ bs : List WorkerBehavior,
      ((bs.map workerEvents).map (fun w => (w.map g).sum)).sum = (bs.map hb).sum := by
  intro bs
  induction bs with
  | nil => rfl
  | cons b tl ih => simp only [List.map_cons, List.sum_cons, ih, hg b]

lemma okWorker_init (bs : List WorkerBehavior) :
    ∀ w ∈ bs.map workerEvents, okWorker w := by
  intro w hw
  rcases List.mem_map.1 hw with ⟨b, _, rfl⟩
  cases b with
  | completes k e => exact Or.inl ⟨k, e, rfl⟩
  | raises => exact Or.inr (Or.inr (Or.inl rfl))

lemma halfVal_workerEvents (b : WorkerBehavior) : halfVal (workerEvents b) = 0 := by
  cases b <;> rfl

lemma procVal_workerEvents (b : WorkerBehavior) : procVal (workerEvents b) = 1 := by
  cases b <;> rfl

lemma halfSum_init : ∀ bs : List WorkerBehavior,
    halfSum (bs.map workerEvents) = 0 := by
  intro bs
  induction bs with
  | nil => rfl
  | cons b tl ih =>
    simp only [halfSum, List.map_cons, List.sum_cons] at ih ⊢
    rw [halfVal_workerEvents]
    omega

lemma procSum_init : ∀ bs : List WorkerBehavior,
    procSum (bs.map workerEvents) = bs.length := by
  intro bs
  induction bs with
  | nil => rfl
  | cons b tl ih =>
    simp only [procSum, List.map_cons, List.sum_cons, List.length_cons] at ih ⊢
    rw [procVal_workerEvents]
    omega

/-- `main`, lines 356-360: exit 1 when `errors > 0`, else exit 0. -/
def exit_code (s : Stats) : Nat := if s.errors > 0 then 1 else 0

/-- A concrete complete schedule of one normally-approving worker. -/
lemma schedExample1 :
    Sched ([WorkerBehavior.completes CounterKind.approved "a@x.com"].map workerEvents)
      [Event.incCounter CounterKind.approved, Event.finishClient "a@x.com"] :=
  Sched.step 0 rfl (Sched.step 0 rfl (Sched.done (by simp)))

/-- A concrete complete schedule of one rejecting worker. -/
lemma schedExample2 :
    Sched ([WorkerBehavior.completes CounterKind.rejected "b@x.com"].map workerEvents)
      [Event.incCounter CounterKind.rejected, Event.finishClient "b@x.com"] :=
  Sched.step 0 rfl (Sched.step 0 rfl (Sched.done (by simp)))

/-! ## Claim theorems about the shared statistics -/

/-- C1 (counterexample to the claim as stated): in a one-client run whose
worker takes the approved branch, the trace
`[incCounter approved, finishClient]` is a valid complete schedule, the
one-event trace `[incCounter approved]` is the state right after the first
lock-protected mutation (`shared_results["approved"] += 1`, lines 153-154),
and at that point `processed = 0` while `approved + rejected + errors = 1`;
the claimed equality fails after that lock-protected mutation. -/
theorem c1_counterexample :
    Sched ([WorkerBehavior.completes CounterKind.approved "a@x.com"].map workerEvents)
      ([Event.incCounter CounterKind.approved] ++ [Event.finishClient "a@x.com"]) ∧
    (runTrace (initStats 1) [Event.incCounter CounterKind.approved]).processed = 0 ∧
    sumCnt (runTrace (initStats 1) [Event.incCounter CounterKind.approved]) = 1 ∧
    (runTrace (initStats 1) [Event.incCounter CounterKind.approved]).processed ≠
      sumCnt (runTrace (initStats 1) [Event.incCounter CounterKind.approved]) := by
  refine ⟨?_, rfl, rfl, by decide⟩
  exact Sched.step 0 rfl (Sched.step 0 rfl (Sched.done (by simp)))

/-- C1 (amended): along every interleaving of the workers' lock-protected
critical sections, `processed ≤ approved + rejected + errors` and
`processed ≤ total_clients` hold after every mutation (the equality can fail
while a worker sits between its counter update and its `processed` update);
after the run completes over `N` fetched clients, `processed = N` and
`approved + rejected + errors = N`. -/
theorem c1_invariant_amended (bs : List WorkerBehavior) (t : List Event)
    (h : Sched (bs.map workerEvents) t) :
    ((runTrace (initStats bs.length) t).processed = bs.length ∧
     sumCnt (runTrace (initStats bs.length) t) = bs.length) ∧
    (∀ p q : List Event, t = p ++ q →
      (runTrace (initStats bs.length) p).processed ≤
        sumCnt (runTrace (initStats bs.length) p) ∧
      sumCnt (runTrace (initStats bs.length) p) ≤ bs.length ∧
      (runTrace (initStats bs.length) p).processed ≤
        (runTrace (initStats bs.length) p).total_clients) := by
  have hok := okWorker_init bs
  have hhalf := halfSum_init bs
  have hproc := procSum_init bs
  obtain ⟨c1, c2, c3⟩ := sched_invariant h (initStats bs.length) hok
    (by simp [initStats, sumCnt, hhalf])
    (by simp [initStats, hproc])
  have htotal := runTrace_total t (initStats bs.length)
  constructor
  · constructor
    · rw [c2, htotal]; rfl
    · rw [c1, c2, htotal]; rfl
  · intro p q hpq
    obtain ⟨d1, d2⟩ := c3 p q hpq
    have htp := runTrace_total p (initStats bs.length)
    refine ⟨d1, ?_, ?_⟩
    · calc sumCnt (runTrace (initStats bs.length) p)
          ≤ (runTrace (initStats bs.length) p).total_clients := d2
        _ = bs.length := by rw [htp]; rfl
    · omega

/-- C1 witness: the amended theorem applied to the one-client approved run. -/
theorem c1_invariant_amended_witness :
    (runTrace (initStats 1) [Event.incCounter CounterKind.approved,
        Event.finishClient "a@x.com"]).processed = 1 ∧
    sumCnt (runTrace (initStats 1) [Event.incCounter CounterKind.approved,
        Event.finishClient "a@x.com"]) = 1 :=
  (c1_invariant_amended [WorkerBehavior.completes CounterKind.approved "a@x.com"]
    [Event.incCounter CounterKind.approved, Event.finishClient "a@x.com"]
    schedExample1).1

/-- C4 (counterexample to the claim as stated): a one-client run whose worker
raises is handled by the orchestrator's `as_completed` exception handler
(lines 310-317): it increments `errors` and `processed` but appends nothing
to `client_results`, so the aggregated list has no entry for that client —
not "exactly one ClientResult entry per fetched client". -/
theorem c4_counterexample :
    Sched ([WorkerBehavior.raises].map workerEvents) [Event.excCaught] ∧
    (runTrace (initStats 1) [Event.excCaught]).client_results = [] ∧
    (runTrace (initStats 1) [Event.excCaught]).errors = 1 ∧
    (runTrace (initStats 1) [Event.excCaught]).processed = 1 := by
  refine ⟨?_, rfl, rfl, rfl⟩
  exact Sched.step 0 rfl (Sched.done (by simp))

/-- C4 (amended): after `run()` completes, `client_results` contains exactly
one entry per client whose worker completed normally (the multiplicity of
each email equals the number of normally-completing workers for it, so with
distinct emails: exactly one entry each, no duplicates); a client whose
worker raised an unexpected exception is counted in `errors` (and
`processed`) but gets no `client_results` entry at all. -/
theorem c4_results_amended (bs : List WorkerBehavior) (t : List Event)
    (h : Sched (bs.map workerEvents) t) (email : String) :
    (runTrace (initStats bs.length) t).client_results.count email
      = (bs.map (clientEntryVal email)).sum ∧
    (runTrace (initStats bs.length) t).errors = (bs.map behaviorErr).sum := by
  constructor
  · rw [runTrace_results t (initStats bs.length)]
    show (([] : List String) ++ t.filterMap resultOf).count email = _
    rw [List.nil_append, count_filterMap email t, sched_traceCount h (finVal email),
      map_workerEvents_sum (finVal email) (clientEntryVal email) (worker_finVal email) bs]
  · rw [runTrace_errors t (initStats bs.length)]
    show 0 + (t.map errVal).sum = _
    rw [Nat.zero_add, sched_traceCount h errVal,
      map_workerEvents_sum errVal behaviorErr worker_errVal bs]

/-- C4 witness: in the one-client approved run, the client's email occurs
exactly once in `client_results` and no error is recorded. -/
theorem c4_results_amended_witness :
    (runTrace (initStats 1) [Event.incCounter CounterKind.approved,
        Event.finishClient "a@x.com"]).client_results.count "a@x.com" = 1 ∧
    (runTrace (initStats 1) [Event.incCounter CounterKind.approved,
        Event.finishClient "a@x.com"]).errors = 0 :=
  c4_results_amended [WorkerBehavior.completes CounterKind.approved "a@x.com"]
    [Event.incCounter CounterKind.approved, Event.finishClient "a@x.com"]
    schedExample1 "a@x.com"

/-- C5: for a completed run over a non-empty client list, the process exit
status (lines 356-360) is non-zero iff at least one worker contributed to
the `errors` counter; rejections and timeouts (behaviours with
`behaviorErr = 0`) alone always yield exit status 0. -/
theorem c5_exit_policy (bs : List WorkerBehavior) (t : List Event)
    (h : Sched (bs.map workerEvents) t) (_hne : bs ≠ []) :
    (runTrace (initStats bs.length) t).errors = (bs.map behaviorErr).sum ∧
    (exit_code (runTrace (initStats bs.length) t) ≠ 0 ↔
      0 < (bs.map behaviorErr).sum) ∧
    ((∀ b ∈ bs, behaviorErr b = 0) →
      exit_code (runTrace (initStats bs.length) t) = 0) := by
  have herr : (runTrace (initStats bs.length) t).errors = (bs.map behaviorErr).sum := by
    rw [runTrace_errors t (initStats bs.length)]
    show 0 + (t.map errVal).sum = _
    rw [Nat.zero_add, sched_traceCount h errVal,
      map_workerEvents_sum errVal behaviorErr worker_errVal bs]
  refine ⟨herr, ?_, ?_⟩
  · unfold exit_code
    rw [herr]
    by_cases hp : 0 < (bs.map behaviorErr).sum <;> simp [hp]
  · intro hz
    have hzero : (bs.map behaviorErr).sum = 0 := by
      apply List.sum_eq_zero
      intro x hx
      rcases List.mem_map.1 hx with ⟨b, hb, rfl⟩
      exact hz b hb
    unfold exit_code
    rw [herr, hzero]
    simp

/-- C5 witness: a run with one rejected client exits 0. -/
theorem c5_exit_policy_witness :
    exit_code (runTrace (initStats 1) [Event.incCounter CounterKind.rejected,
      Event.finishClient "b@x.com"]) = 0 :=
  (c5_exit_policy [WorkerBehavior.completes CounterKind.rejected "b@x.com"]
    [Event.incCounter CounterKind.rejected, Event.finishClient "b@x.com"]
    schedExample2 (by simp)).2.2
    (by intro b hb; rw [List.mem_singleton.mp hb]; rfl)

/-! ## The notification sink (scripts/discord_monitor.py) -/

/-- The observable state of `DiscordMonitor`: `is_connected` (line 24/33),
the `message_queue` guarded by `self.lock` (lines 25-26, 79-86), and — as a
history variable — the list of messages actually sent to the channel. -/
structure MonitorState where
  is_connected : Bool
  message_queue : List String
  delivered : List String
deriving DecidableEq

/-- The operations that touch the monitor state: a submission
(`send_status_update` / `send_client_update` / `send_summary_report`, which
all end in `queue_message`, lines 110, 156, 209) and a connection event
(`on_ready`, lines 28-43, which — when the channel is found — sets
`is_connected` and runs `process_message_queue`, lines 66-77, sending every
queued message in order and clearing the queue).  `process_message_queue` is
called from nowhere else in the module. -/
inductive MonitorOp where
  | submit (m : String)
  | onReady (channelFound : Bool)
deriving DecidableEq

def monitorStep (s : MonitorState) : MonitorOp → MonitorState
  | MonitorOp.submit m => { s with message_queue := s.message_queue ++ [m] }
  | MonitorOp.onReady true =>
      { is_connected := true, message_queue := [],
        delivered := s.delivered ++ s.message_queue }
  | MonitorOp.onReady false => s

/-- Initial state (lines 23-25) followed by a sequence of operations. -/
def monitorRun (ops : List MonitorOp) : MonitorState :=
  ops.foldl monitorStep { is_connected := false, message_queue := [], delivered := [] }

/-! ## Top-level dispatch of main (client_outreach_orchestrator.py) -/

/-- How the Google Drive fetch step can go: `run_script` failure (line 214),
unextractable payload (line 224), or a fetched client list. -/
inductive FetchResult where
  | failed
  | parseFailed
  | ok (clients : List String)
deriving DecidableEq

/-- The distinct terminal shapes of `main`: fetch failure (`sys.exit(1)`,
line 219), parse failure (`sys.exit(1)`, line 229), the empty-list branch
(lines 247-252, `sys.exit(0)` after its own "No Clients" status), and a
completed campaign with final statistics (lines 319-360). -/
inductive RunReport where
  | dataFetchFailed
  | dataParseFailed
  | noClients
  | completed (final : Stats)
deriving DecidableEq

/-- Process exit codes of the four terminal shapes (lines 219, 229, 252,
356-360). -/
def reportExit : RunReport → Nat
  | RunReport.dataFetchFailed => 1
  | RunReport.dataParseFailed => 1
  | RunReport.noClients => 0
  | RunReport.completed s => exit_code s

/-- The distinguishing status title each terminal shape reports
(lines 218, 228, 251, and the summary embed title of
`send_summary_report`). -/
def statusTitle : RunReport → String
  | RunReport.dataFetchFailed => "❌ Data Fetch Failed"
  | RunReport.dataParseFailed => "❌ Data Parse Failed"
  | RunReport.noClients => "ℹ️  No Clients"
  | RunReport.completed _ => "📊 Outreach Campaign Summary"

/-- `main` after the fetch step: dispatch on the fetch result and the client
list; `finalOf` stands for the fan-out/drain phase producing the final
statistics of a non-empty run. -/
def mainReport (fr : FetchResult) (finalOf : List String → Stats) : RunReport :=
  match fr with
  | FetchResult.failed => RunReport.dataFetchFailed
  | FetchResult.parseFailed => RunReport.dataParseFailed
  | FetchResult.ok clients =>
      if clients.isEmpty then RunReport.noClients
      else RunReport.completed (finalOf clients)

/-- Number of worker threads submitted to the `ThreadPoolExecutor`
(lines 282-294): one per client, and none at all on the paths that exit
before line 282. -/
def workersSpawned (fr : FetchResult) : Nat :=
  match fr with
  | FetchResult.ok clients => if clients.isEmpty then 0 else clients.length
  | _ => 0

/-! ## Remaining claim theorems -/

/-- C2 (code evaluated at the failing input): a client approved by "alex"
whose `send_email.py` subprocess fails (exit 1) still produces a script run
with exit code 0 and an `approved = true` payload, so the orchestrator
records status `approved_and_sent` and increments the `approved` counter —
the send failure is not recorded as an error.  (The success half of the
claim also holds: with a succeeding send, the status is likewise
`approved_and_sent`.) -/
theorem c2_code_bug :
    (discord_script_main (DecisionOutcome.approvedBy "alex") 1).emailAttempted = true ∧
    (discord_script_main (DecisionOutcome.approvedBy "alex") 1).emailExitCode = some 1 ∧
    (discord_script_main (DecisionOutcome.approvedBy "alex") 1).exitCode = 0 ∧
    orchestrator_outcome (DecisionOutcome.approvedBy "alex") 1
      = (Status.approved_and_sent, CounterKind.approved) ∧
    orchestrator_outcome (DecisionOutcome.approvedBy "alex") 0
      = (Status.approved_and_sent, CounterKind.approved) := by
  refine ⟨rfl, rfl, rfl, ?_, ?_⟩ <;> rfl

/-- C3 (code evaluated at the failing input): when the approval request
times out after 86400 s, `request_client_approval` stores
`error = "No response within 24 hours"`, `main` of the approval script exits
1, and the orchestrator therefore takes the failure branch: the recorded
status is `script_error` and the `errors` counter — not the `rejected`
counter — is incremented.  No email is attempted, as the claim says. -/
theorem c3_code_bug :
    (approvalResult DecisionOutcome.timedOut).error = some "No response within 24 hours" ∧
    (discord_script_main DecisionOutcome.timedOut 0).exitCode = 1 ∧
    (discord_script_main DecisionOutcome.timedOut 0).emailAttempted = false ∧
    orchestrator_outcome DecisionOutcome.timedOut 0
      = (Status.script_error, CounterKind.errors) := by
  refine ⟨rfl, rfl, rfl, rfl⟩

/-- C6: with a successfully fetched but empty client list, `main` takes the
distinct no-work branch: the report is `noClients`, the exit status is 0
(unlike the error exits, which are 1), no worker is spawned, and the
reported status title differs from both the error titles and the completed
campaign's summary title. -/
theorem c6_no_work (finalOf : List String → Stats) :
    mainReport (FetchResult.ok []) finalOf = RunReport.noClients ∧
    reportExit (mainReport (FetchResult.ok []) finalOf) = 0 ∧
    workersSpawned (FetchResult.ok []) = 0 ∧
    reportExit RunReport.dataFetchFailed = 1 ∧
    statusTitle RunReport.noClients ≠ statusTitle RunReport.dataFetchFailed ∧
    statusTitle RunReport.noClients ≠ statusTitle (RunReport.completed (initStats 0)) ∧
    RunReport.noClients ≠ RunReport.completed (initStats 0) ∧
    (initStats 0).processed = 0 ∧ (initStats 0).errors = 0 := by
  refine ⟨rfl, rfl, rfl, rfl, by decide, by decide, by decide, rfl, rfl⟩

/-- C6 witness: the theorem at a concrete `finalOf`. -/
theorem c6_no_work_witness :
    mainReport (FetchResult.ok []) (fun cs => initStats cs.length) = RunReport.noClients :=
  (c6_no_work (fun cs => initStats cs.length)).1

/-- C7 (code evaluated at the failing input): updates submitted while
disconnected are buffered and flushed in submission order when `on_ready`
fires ("u1" is delivered); but an update submitted after the connection is
established ("u2") is only appended to `message_queue` — since
`process_message_queue` is called only from `on_ready`, it is never
delivered, contradicting the claim that post-connection updates are
delivered too. -/
theorem c7_code_bug :
    monitorRun [MonitorOp.submit "u1", MonitorOp.onReady true, MonitorOp.submit "u2"]
      = { is_connected := true, message_queue := ["u2"], delivered := ["u1"] } ∧
    monitorRun [MonitorOp.submit "u1", MonitorOp.onReady true, MonitorOp.submit "u2",
        MonitorOp.submit "u3"]
      = { is_connected := true, message_queue := ["u2", "u3"], delivered := ["u1"] } ∧
    monitorRun [MonitorOp.submit "u1", MonitorOp.submit "u2", MonitorOp.onReady true]
      = { is_connected := true, message_queue := [], delivered := ["u1", "u2"] } := by
  refine ⟨rfl, rfl, rfl⟩

/-- C8: the pending approval resolves only on a reaction signal that is on
the exact message this request posted, uses one of the two decision emojis,
and comes from a non-bot user; any signal failing one of these conditions
fails `check_reaction` and is skipped by the wait — removing it from the
stream does not change which signal (if any) resolves the request. -/
theorem c8_reaction_filter (messageId : Nat) (sig : ReactionSignal)
    (h : sig.messageId ≠ messageId ∨
      (sig.emoji ≠ APPROVE_EMOJI ∧ sig.emoji ≠ REJECT_EMOJI) ∨
      sig.userIsBot = true) :
    check_reaction messageId sig = false ∧
    ∀ pre post : List ReactionSignal,
      resolveDecision messageId (pre ++ sig :: post)
        = resolveDecision messageId (pre ++ post) := by
  have hfalse : check_reaction messageId sig = false := by
    rcases h with h | ⟨h1, h2⟩ | h
    · simp [check_reaction, h]
    · simp [check_reaction, h1, h2]
    · simp [check_reaction, h]
  refine ⟨hfalse, ?_⟩
  intro pre post
  induction pre with
  | nil => simp [resolveDecision, List.find?, hfalse]
  | cons a pre ih =>
    simp only [List.cons_append, resolveDecision, List.find?] at ih ⊢
    cases check_reaction messageId a <;> simp [ih]

/-- C8 witness: a bot-emitted approve reaction on the right message is
discarded and resolves nothing. -/
theorem c8_reaction_filter_witness :
    check_reaction 7 ⟨7, "👍", true⟩ = false ∧
    resolveDecision 7 ([] ++ ⟨7, "👍", true⟩ :: []) = resolveDecision 7 ([] ++ []) :=
  ⟨(c8_reaction_filter 7 ⟨7, "👍", true⟩ (Or.inr (Or.inr rfl))).1,
   (c8_reaction_filter 7 ⟨7, "👍", true⟩ (Or.inr (Or.inr rfl))).2 [] []⟩

/-- C9: when the approval subprocess exits 0 but no JSON payload can be
extracted from its stdout (markers absent, or the enclosed text fails to
decode), `process_client_approval` takes the final `else` branch: the status
is `rejected` and the `rejected` counter — not `errors` — is the one
incremented. -/
theorem c9_unextractable_rejected (loads : List Char → Option ApprovalData)
    (output : List Char)
    (h : extract_json_from_output loads output = none) :
    process_client_approval true (extract_json_from_output loads output)
      = (Status.rejected, CounterKind.rejected) := by
  rw [h]
  rfl

/-- C9 witness: stdout without any markers yields no payload and is
classified rejected. -/
theorem c9_unextractable_rejected_witness :
    process_client_approval true
      (extract_json_from_output (fun _ => (none : Option ApprovalData)) "hello".toList)
      = (Status.rejected, CounterKind.rejected) :=
  c9_unextractable_rejected (fun _ => none) "hello".toList (by rfl)

/-- C10: `run_script` is total — every subprocess outcome yields a
`ScriptResult` record (with its `success`, `stdout`, `stderr`, `return_code`
fields) and no exception escapes; a completed process reports
`success ↔ return code = 0`; a timeout yields `success = false`,
`stderr = "Script timed out after 24 hours"`, `return_code = -1`; any other
exception yields `success = false` with its message as `stderr` and
`return_code = -1`. -/
theorem c10_run_script_total :
    (∀ rc out err, run_script (SubprocessOutcome.completed rc out err)
      = { success := decide (rc = 0), stdout := out, stderr := err, return_code := rc }) ∧
    run_script SubprocessOutcome.timedOut
      = { success := false, stdout := "", stderr := "Script timed out after 24 hours",
          return_code := -1 } ∧
    (∀ msg, run_script (SubprocessOutcome.raised msg)
      = { success := false, stdout := "", stderr := msg, return_code := -1 }) ∧
    (∀ o, (run_script o).success = true ↔ (run_script o).return_code = 0) := by
  refine ⟨fun rc out err => rfl, rfl, fun msg => rfl, ?_⟩
  intro o
  cases o with
  | completed rc out err => simp [run_script]
  | timedOut => simp [run_script]
  | raised msg => simp [run_script]

/-- C10 witness: the timeout equation instantiated. -/
theorem c10_run_script_total_witness :
    run_script SubprocessOutcome.timedOut
      = { success := false, stdout := "", stderr := "Script timed out after 24 hours",
          return_code := -1 } :=
  c10_run_script_total.2.1

end Outreach
